import Mathlib

/-!
Shallow embedding of the data-aggregation layer of the protection-device
management repository (src/data_manager.py), together with theorems checking
the natural-language specification against it.

Modelling conventions:
* pandas cells are `Option String` (`none` models a missing column / NaN cell);
  `str(x).strip()` on a present cell is the character-level `pyStrip`.
* Python dicts used as lookup tables are modelled as total functions with the
  dict's default (`None` / `[]`); insertion is function update.
* Python sets of strings are modelled as duplicate-free lists (only membership
  is ever queried).
* Floats are modelled as rationals; every percentage computed by the code is a
  ratio of small integers, so no rounding behaviour is lost for the properties
  stated here.
* File-system access is modelled by `Option` inputs: `none` means the source
  file or directory does not exist, `some rows` means it was read successfully.
-/

set_option autoImplicit false

namespace ProtDev

/-- Scalar value inside an embedded Python-literal record, as produced by
`ast.literal_eval` on the log message payload. The modelled grammar covers
string, `None` and integer scalars (the shapes the script writes and the spec
names); other literal shapes are outside the model. -/
inductive PyVal where
  | pstr (s : String)
  | pnone
  | pint (n : Int)
  deriving DecidableEq, Repr

/-- One embedded transfer record: a flat string-keyed Python dict. Pairs are
kept in textual order; lookups take the last binding, matching dict semantics
when a key repeats in the literal. -/
abbrev Item := List (String × PyVal)

/-- Python `key in item` (dict key membership). -/
def itemHasKey (it : Item) (k : String) : Bool :=
  it.any (fun p => p.1 == k)

/-- Python `item.get(key, default)`: the last binding of the key, or the
default. -/
def itemGetD (it : Item) (k : String) (d : PyVal) : PyVal :=
  ((it.reverse.find? (fun p => p.1 == k)).map (fun p => p.2)).getD d

/-- A JSON value occurring in a log-line envelope. The modelled grammar covers
the string and integer scalars the log writer emits; nested values are outside
the model (the loader only reads the `timestamp` and `message` fields, both
strings in well-formed lines). -/
inductive JVal where
  | jstr (s : String)
  | jnum (n : Int)
  deriving DecidableEq, Repr

/-- A parsed JSON log-line envelope: a flat object. -/
abbrev JObj := List (String × JVal)

/-- Python `dict_entry.get(key, default)` on a parsed envelope. -/
def jget (o : JObj) (k : String) (d : JVal) : JVal :=
  ((o.reverse.find? (fun p => p.1 == k)).map (fun p => p.2)).getD d

/-- ASCII whitespace as recognised by Python `str.strip()` (space, tab,
newline, carriage return, vertical tab, form feed; the model is restricted to
ASCII whitespace). -/
def isPyWs (c : Char) : Bool :=
  c == ' ' || c == '\t' || c == '\n' || c == '\r' || c == '\x0b' || c == '\x0c'

/-- Python `str.strip()`: remove leading and trailing whitespace. -/
def pyStrip (s : String) : String :=
  String.mk (((s.data.dropWhile isPyWs).reverse.dropWhile isPyWs).reverse)

/-- Python `str.startswith(pre)`. -/
def pyStartsWith (s p : String) : Bool :=
  p.data.isPrefixOf s.data

/-- Python `str.lower()` (ASCII case folding suffices for the filenames the
code sorts). -/
def pyLower (s : String) : String :=
  String.mk (s.data.map Char.toLower)

/-- Lexicographic code-point comparison of strings, as Python uses when
sorting. -/
def lexLe : List Char → List Char → Bool
  | [], _ => true
  | _ :: _, [] => false
  | a :: as, b :: bs => if a = b then lexLe as bs else decide (a < b)

/-- Value of a pandas cell as the code reads it:
`str(row.get(col, '')).strip() if pd.notna(row.get(col, '')) else ''`. -/
def cellClean : Option String → String
  | some s => pyStrip s
  | none => ""

/-- Append `x` to `acc` unless already present: one step of the
`dict.fromkeys` / `if x not in xs: xs.append(x)` idiom. -/
def pushNews {α : Type} [DecidableEq α] (acc : List α) (xs : List α) : List α :=
  xs.foldl (fun a x => if x ∈ a then a else a ++ [x]) acc

/-- De-duplication keeping the first occurrence of each element, in order:
Python `list(dict.fromkeys(xs))`. -/
def firstSeenDedup {α : Type} [DecidableEq α] (xs : List α) : List α :=
  pushNews [] xs

/-- Stable insertion into a sorted list: `a` goes before the first element `b`
with `le a b`. -/
def insertSorted {α : Type} (le : α → α → Bool) : α → List α → List α
  | a, [] => [a]
  | a, b :: l => if le a b then a :: b :: l else b :: insertSorted le a l

/-- Stable sort (models Python `list.sort(key=...)`, which is stable; the
comparison `le` already encodes the key and direction). -/
def stableSortBy {α : Type} (le : α → α → Bool) : List α → List α
  | [] => []
  | a :: l => insertSorted le a (stableSortBy le l)

/-- A raw row of `type_mapping.csv` as pandas hands it to the loop in
`DataManager._load_type_mapping`: the three named cells. -/
structure TypeMappingRow where
  ips : Option String
  pf_model : Option String
  mapping_file : Option String
  deriving DecidableEq, Repr

/-- Dataclass `TypeMappingEntry`. -/
structure TypeMappingEntry where
  ips : String
  pf_model : String
  mapping_file : String
  deriving DecidableEq, Repr

/-- Body of the row loop in `DataManager._load_type_mapping`: clean the three
cells and append an entry only when `MAPPING_FILE` is non-empty. -/
def typeMappingStep (acc : List TypeMappingEntry) (row : TypeMappingRow) :
    List TypeMappingEntry :=
  let mf := cellClean row.mapping_file
  if mf ≠ "" then
    acc ++ [⟨cellClean row.ips, cellClean row.pf_model, mf⟩]
  else acc

/-- `DataManager._load_type_mapping`; `none` input models a missing file (the
early return leaves the list empty). -/
def loadTypeMapping : Option (List TypeMappingRow) → List TypeMappingEntry
  | none => []
  | some rows => rows.foldl typeMappingStep []

/-- One iteration of the `mapping_by_ips_pattern` dict assignment in
`DataManager._build_mapping_lookup`:
`if entry.ips and entry.mapping_file: dict[entry.ips] = entry.mapping_file + '.csv'`. -/
def ipsIndexStep (m : String → Option String) (e : TypeMappingEntry) :
    String → Option String :=
  if e.ips ≠ "" ∧ e.mapping_file ≠ "" then
    fun k => if k = e.ips then some (e.mapping_file ++ ".csv") else m k
  else m

/-- The `mapping_by_ips_pattern` dict built by
`DataManager._build_mapping_lookup`, as a total function (`none` = key
absent). -/
def buildIpsIndex (entries : List TypeMappingEntry) : String → Option String :=
  entries.foldl ipsIndexStep (fun _ => none)

/-- One iteration of the `mapping_by_pf_model` dict update in
`DataManager._build_mapping_lookup`: create the key with `[]` if absent, then
append the `.csv` filename unless already present. -/
def pfIndexStep (m : String → List String) (e : TypeMappingEntry) :
    String → List String :=
  if e.pf_model ≠ "" ∧ e.mapping_file ≠ "" then
    fun k =>
      if k = e.pf_model then
        if (e.mapping_file ++ ".csv") ∈ m e.pf_model then m e.pf_model
        else m e.pf_model ++ [e.mapping_file ++ ".csv"]
      else m k
  else m

/-- The `mapping_by_pf_model` dict built by
`DataManager._build_mapping_lookup`, as a total function (`[]` = key absent;
the code never stores an empty list for a present key). -/
def buildPfIndex (entries : List TypeMappingEntry) : String → List String :=
  entries.foldl pfIndexStep (fun _ => [])

/-- Dataclass `MappingFile`. -/
structure MappingFile where
  filename : String
  ips_patterns : List String
  pf_models : List String
  validated : String
  deriving DecidableEq, Repr

/-- Body of the per-file loop in `DataManager._load_mapping_files` for one
discovered CSV file, given as its stem (filename without the extension). -/
def mappingFileOf (entries : List TypeMappingEntry)
    (validatedMappingFiles : List String) (stem : String) : MappingFile :=
  let matching := entries.filter (fun e => e.mapping_file == stem)
  { filename := stem ++ ".csv"
    ips_patterns := firstSeenDedup ((matching.map (fun e => e.ips)).filter (fun s => s ≠ ""))
    pf_models := firstSeenDedup ((matching.map (fun e => e.pf_model)).filter (fun s => s ≠ ""))
    validated := if stem ∈ validatedMappingFiles then "Yes" else "" }

/-- `DataManager._load_mapping_files`: one `MappingFile` per CSV file found in
the mapping directory (given as the list of file stems in directory order),
sorted case-insensitively by filename; `none` models a missing directory. -/
def loadMappingFiles (dirStems : Option (List String))
    (entries : List TypeMappingEntry) (validatedMappingFiles : List String) :
    List MappingFile :=
  match dirStems with
  | none => []
  | some stems =>
    stableSortBy (fun a b => lexLe (pyLower a.filename).data (pyLower b.filename).data)
      (stems.map (mappingFileOf entries validatedMappingFiles))

/-- The `mapping_parse_stats` pair `(total, success)` computed by
`DataManager._load_mapping_files`. -/
def mappingParseStats (dirStems : Option (List String))
    (entries : List TypeMappingEntry) : Nat × Nat :=
  match dirStems with
  | none => (0, 0)
  | some stems =>
    (stems.length,
     stems.countP (fun stem =>
       let mf := mappingFileOf entries [] stem
       !mf.ips_patterns.isEmpty || !mf.pf_models.isEmpty))

/-- The retained entry produced from one `type_mapping.csv` row, if any. -/
def typeMappingRowEntry (row : TypeMappingRow) : Option TypeMappingEntry :=
  if cellClean row.mapping_file ≠ "" then
    some ⟨cellClean row.ips, cellClean row.pf_model, cellClean row.mapping_file⟩
  else none

/-- Type-mapping table with a duplicated IPS pattern, used to refute C4 as
stated. -/
def c4Rows : List TypeMappingRow :=
  [⟨some "P", some "M1", some "m1"⟩, ⟨some "P", some "M2", some "m2"⟩]

/-- A raw row of a relay-pattern CSV (`patternname`, `assetname` columns). -/
structure PatternRow where
  patternname : String
  assetname : String
  deriving DecidableEq, Repr

/-- Dataclass `RelayPattern`. -/
structure RelayPattern where
  pattern : String
  asset : String
  eql_population : Nat
  source : String
  powerfactory_model : String
  mapping_file : String
  deriving DecidableEq, Repr

/-- Body of the per-pattern loop in `DataManager._load_relay_patterns_from_file`:
rows sharing the pattern, first row's asset, row count, and the mapping-file
lookup. (`pattern_rows['assetname'].iloc[0]` is only evaluated for patterns
that occur, so the `getD ""` default is never used.) -/
def relayPatternOf (rows : List PatternRow) (ipsIndex : String → Option String)
    (source : String) (p : String) : RelayPattern :=
  let patternRows := rows.filter (fun r => r.patternname == p)
  { pattern := p
    asset := ((patternRows.head?).map (fun r => r.assetname)).getD ""
    eql_population := patternRows.length
    source := source
    powerfactory_model := ""
    mapping_file := (ipsIndex p).getD "" }

/-- `DataManager._load_relay_patterns_from_file`: unique patterns in
first-seen file order, one `RelayPattern` each, sorted by `eql_population`
descending; also returns `len(df)` (the total-records statistic). `none`
models a missing CSV (`FileNotFoundError` caught, nothing loaded). -/
def loadRelayPatternsFromFile (rowsIn : Option (List PatternRow))
    (ipsIndex : String → Option String) (source : String) :
    List RelayPattern × Nat :=
  match rowsIn with
  | none => ([], 0)
  | some rows =>
    (stableSortBy (fun a b => decide (b.eql_population ≤ a.eql_population))
      ((firstSeenDedup (rows.map (fun r => r.patternname))).map
        (relayPatternOf rows ipsIndex source)),
     rows.length)

/-- Characters up to (excluding) the next occurrence of the quote `q`, plus
the remainder after it; `none` when the quote never closes. -/
def scanTo (q : Char) : List Char → Option (List Char × List Char)
  | [] => none
  | c :: cs =>
    if c = q then some ([], cs)
    else (scanTo q cs).map (fun r => (c :: r.1, r.2))

/-- A `q`-quoted token. Escape sequences are outside the modelled grammar:
the log lines the script writes contain none. -/
def pQuoted (q : Char) (cs : List Char) : Option (String × List Char) :=
  match cs with
  | [] => none
  | c :: rest =>
    if c = q then (scanTo q rest).map (fun r => (String.mk r.1, r.2))
    else none

/-- Skip leading whitespace between tokens. -/
def skipWs : List Char → List Char
  | [] => []
  | c :: cs => if isPyWs c then skipWs cs else c :: cs

/-- Numeric value of a digit run. -/
def natOfDigits (ds : List Char) : Nat :=
  ds.foldl (fun n c => n * 10 + (c.toNat - 48)) 0

/-- An optionally signed integer literal. -/
def pInt : List Char → Option (Int × List Char)
  | '-' :: cs =>
    let p := cs.span (fun c => c.isDigit)
    if p.1.isEmpty then none else some (-(Int.ofNat (natOfDigits p.1)), p.2)
  | cs =>
    let p := cs.span (fun c => c.isDigit)
    if p.1.isEmpty then none else some (Int.ofNat (natOfDigits p.1), p.2)

/-- A JSON scalar value of the modelled grammar (string or integer). -/
def pJVal (cs : List Char) : Option (JVal × List Char) :=
  match pQuoted '"' cs with
  | some r => some (JVal.jstr r.1, r.2)
  | none =>
    match pInt cs with
    | some r => some (JVal.jnum r.1, r.2)
    | none => none

/-- Remaining `"key": value` pairs of a JSON object, after the opening brace;
fuel bounds the recursion by the input length. -/
def pJPairs : Nat → List Char → JObj → Option (JObj × List Char)
  | 0, _, _ => none
  | fuel + 1, cs, acc =>
    match pQuoted '"' (skipWs cs) with
    | none => none
    | some (k, r1) =>
      match skipWs r1 with
      | ':' :: r2 =>
        match pJVal (skipWs r2) with
        | none => none
        | some (v, r3) =>
          match skipWs r3 with
          | ',' :: r4 => pJPairs fuel r4 (acc ++ [(k, v)])
          | '\x7d' :: r4 => some (acc ++ [(k, v)], r4)
          | _ => none
      | _ => none

/-- Result of `json.loads` on one log line, at the fidelity the loader needs:
`err` models `json.JSONDecodeError` (caught per line), `scalarTop` a valid
JSON document whose top-level value is not an object (the subsequent
`dict_entry.get` then raises `AttributeError`, reaching the file-level
handler), `obj` a flat object of the modelled grammar. -/
inductive JsonOut where
  | err
  | scalarTop
  | obj (o : JObj)
  deriving DecidableEq, Repr

/-- A flat JSON object, brace to brace. -/
def pJObj (cs : List Char) : Option (JObj × List Char) :=
  match cs with
  | [] => none
  | c :: rest =>
    if c = '\x7b' then
      match skipWs rest with
      | [] => none
      | d :: rest2 =>
        if d = '\x7d' then some ([], rest2)
        else pJPairs (rest.length + 1) rest []
    else none

/-- Model of `json.loads(line)` restricted to the log grammar: a flat object
with string/integer values, or a top-level string/integer/keyword scalar.
Nested structures are outside the model. -/
def jsonParseLine (s : String) : JsonOut :=
  let cs := skipWs s.data
  match pJObj cs with
  | some (o, rest) => if (skipWs rest).isEmpty then JsonOut.obj o else JsonOut.err
  | none =>
    match pQuoted '"' cs with
    | some (_, r) => if (skipWs r).isEmpty then JsonOut.scalarTop else JsonOut.err
    | none =>
      match pInt cs with
      | some (_, r) => if (skipWs r).isEmpty then JsonOut.scalarTop else JsonOut.err
      | none =>
        if pyStrip s = "true" ∨ pyStrip s = "false" ∨ pyStrip s = "null" then
          JsonOut.scalarTop
        else JsonOut.err

/-- A Python string token (single- or double-quoted). -/
def pPyStrTok (cs : List Char) : Option (String × List Char) :=
  match pQuoted '\x27' cs with
  | some r => some r
  | none => pQuoted '"' cs

/-- A Python literal scalar of the modelled grammar: string, `None`, or
integer. -/
def pPyVal (cs : List Char) : Option (PyVal × List Char) :=
  match pPyStrTok cs with
  | some (s, r) => some (PyVal.pstr s, r)
  | none =>
    match cs with
    | 'N' :: 'o' :: 'n' :: 'e' :: r => some (PyVal.pnone, r)
    | _ =>
      match pInt cs with
      | some (n, r) => some (PyVal.pint n, r)
      | none => none

/-- Remaining `'key': value` pairs of a literal dict, after the opening
brace. -/
def pItemPairs : Nat → List Char → Item → Option (Item × List Char)
  | 0, _, _ => none
  | fuel + 1, cs, acc =>
    match pPyStrTok (skipWs cs) with
    | none => none
    | some (k, r1) =>
      match skipWs r1 with
      | ':' :: r2 =>
        match pPyVal (skipWs r2) with
        | none => none
        | some (v, r3) =>
          match skipWs r3 with
          | ',' :: r4 => pItemPairs fuel r4 (acc ++ [(k, v)])
          | '\x7d' :: r4 => some (acc ++ [(k, v)], r4)
          | _ => none
      | _ => none

/-- One element of the embedded literal list: a string-keyed record, or a
non-record scalar (integer or `None`). `ast.literal_eval` accepts the latter,
after which the loader's first attribute/membership access on it raises and
reaches the file-level handler. -/
inductive LitElem where
  | record (it : Item)
  | scalar
  deriving DecidableEq, Repr

/-- One literal-list element. -/
def pLitElem (cs : List Char) : Option (LitElem × List Char) :=
  match cs with
  | [] => none
  | c :: rest =>
    if c = '\x7b' then
      match skipWs rest with
      | [] => none
      | d :: rest2 =>
        if d = '\x7d' then some (LitElem.record [], rest2)
        else (pItemPairs (rest.length + 1) rest []).map
          (fun r => (LitElem.record r.1, r.2))
    else
      match pInt cs with
      | some (_, r) => some (LitElem.scalar, r)
      | none =>
        match cs with
        | 'N' :: 'o' :: 'n' :: 'e' :: r => some (LitElem.scalar, r)
        | _ => none

/-- Comma-separated literal-list elements up to the closing bracket. -/
def pLitElems : Nat → List Char → List LitElem → Option (List LitElem × List Char)
  | 0, _, _ => none
  | fuel + 1, cs, acc =>
    match pLitElem (skipWs cs) with
    | none => none
    | some (e, r) =>
      match skipWs r with
      | ',' :: r2 => pLitElems fuel r2 (acc ++ [e])
      | ']' :: r2 => some (acc ++ [e], r2)
      | _ => none

/-- Model of `ast.literal_eval(list_str)` restricted to the grammar the script
writes: a list of flat string-keyed records with string/`None`/integer
values (plus bare integer/`None` elements); `none` models `ValueError` /
`SyntaxError`, which the loader catches per line. -/
def literalListParse (s : String) : Option (List LitElem) :=
  match skipWs s.data with
  | [] => none
  | c :: rest =>
    if c = '[' then
      match skipWs rest with
      | ']' :: r2 => if (skipWs r2).isEmpty then some [] else none
      | _ =>
        match pLitElems (rest.length + 1) rest [] with
        | some (es, r) => if (skipWs r).isEmpty then some es else none
        | none => none
    else none

/-- The substring of the message from the first `[` to the last `]`
(`message.find('[')` / `message.rfind(']')`); `none` models the `continue`
taken when no bracket pair in the right order exists. -/
def extractListStr (msg : String) : Option String :=
  match msg.data.findIdx? (fun c => c == '[') with
  | none => none
  | some i =>
    match msg.data.reverse.findIdx? (fun c => c == ']') with
    | none => none
    | some k =>
      let j := msg.data.length - 1 - k
      if j + 1 ≤ i then none
      else some (String.mk ((msg.data.drop i).take (j + 1 - i)))

/-- Python `timestamp_str.replace('Z', '+00:00')` (every occurrence). -/
def replaceZ (s : String) : String :=
  String.mk (s.data.foldr
    (fun c acc => if c = 'Z' then '+' :: '0' :: '0' :: ':' :: '0' :: '0' :: acc
      else c :: acc) [])

/-- The six datetime components the display format uses. -/
structure DateTime6 where
  year : Nat
  month : Nat
  day : Nat
  hour : Nat
  minute : Nat
  second : Nat
  deriving DecidableEq, Repr

/-- Two-digit field. -/
def d2 (a b : Char) : Option Nat :=
  if a.isDigit && b.isDigit then some ((a.toNat - 48) * 10 + (b.toNat - 48))
  else none

/-- A trailing UTC offset of the form `+HH:MM` / `-HH:MM`, or nothing. -/
def parseTzTail (cs : List Char) : Bool :=
  match cs with
  | [] => true
  | s :: rest =>
    (s = '+' || s = '-') &&
    (match rest with
     | h1 :: h2 :: ':' :: m1 :: m2 :: [] =>
       h1.isDigit && h2.isDigit && m1.isDigit && m2.isDigit
     | _ => false)

/-- Optional fractional seconds followed by an optional offset. -/
def parseFracTz (cs : List Char) : Bool :=
  match cs with
  | '.' :: rest =>
    let p := rest.span (fun c => c.isDigit)
    !p.1.isEmpty && parseTzTail p.2
  | _ => parseTzTail cs

/-- Model of `datetime.fromisoformat` on the grammar the log uses:
`YYYY-MM-DD[{T| }HH:MM:SS[.ffappend][±HH:MM]]` with basic range checks;
`none` models the `ValueError` that `_format_timestamp` catches. -/
def isoParse (s : String) : Option DateTime6 :=
  match s.data with
  | y1 :: y2 :: y3 :: y4 :: '-' :: mo1 :: mo2 :: '-' :: d1 :: dd2 :: rest =>
    if y1.isDigit && y2.isDigit && y3.isDigit && y4.isDigit then
      match d2 mo1 mo2, d2 d1 dd2 with
      | some mo, some da =>
        if 1 ≤ mo ∧ mo ≤ 12 ∧ 1 ≤ da ∧ da ≤ 31 then
          match rest with
          | [] => some ⟨natOfDigits [y1, y2, y3, y4], mo, da, 0, 0, 0⟩
          | sep :: h1 :: h2 :: ':' :: mi1 :: mi2 :: ':' :: s1 :: s2 :: rest2 =>
            if sep = 'T' || sep = ' ' then
              match d2 h1 h2, d2 mi1 mi2, d2 s1 s2 with
              | some h, some mi, some sec =>
                if h ≤ 23 ∧ mi ≤ 59 ∧ sec ≤ 59 ∧ parseFracTz rest2 = true then
                  some ⟨natOfDigits [y1, y2, y3, y4], mo, da, h, mi, sec⟩
                else none
              | _, _, _ => none
            else none
          | _ => none
        else none
      | _, _ => none
    else none
  | _ => none

/-- Zero-padded two-digit rendering. -/
def pad2 (n : Nat) : String :=
  if n < 10 then "0" ++ toString n else toString n

/-- Zero-padded four-digit rendering. -/
def pad4 (n : Nat) : String :=
  if n < 10 then "000" ++ toString n
  else if n < 100 then "00" ++ toString n
  else if n < 1000 then "0" ++ toString n
  else toString n

/-- `DataManager._format_timestamp`: replace `Z`, parse as ISO, render as
`YYYY-MM-DD HH:MM:SS`; an unparseable timestamp is returned unchanged. -/
def formatTimestamp (ts : String) : String :=
  match isoParse (replaceZ ts) with
  | some dt =>
    pad4 dt.year ++ "-" ++ pad2 dt.month ++ "-" ++ pad2 dt.day ++ " " ++
    pad2 dt.hour ++ ":" ++ pad2 dt.minute ++ ":" ++ pad2 dt.second
  | none => ts

/-- Dataclass `ScriptRunLog`. The substation is whatever value
`embedded_list[0].get('SUBSTATION', 'Unknown')` yields, so it is a literal
scalar, not necessarily a string. -/
structure ScriptRunLog where
  timestamp : String
  substation : PyVal
  num_transfers : Nat
  success_percentage : ℚ
  deriving DecidableEq, Repr

/-- Dataclass `FailedTransfer`. The three payload fields carry the raw
values from the embedded record. -/
structure FailedTransfer where
  timestamp : String
  substation : PyVal
  device_name : PyVal
  result : PyVal
  deriving DecidableEq, Repr

/-- The failed-transfer loop of `DataManager._load_script_logs`: one row per
item that has a `RESULT` key whose value is neither `None` nor a
blank-after-strip string; the row keeps the raw (untrimmed) `RESULT` value. -/
def failedOfItems (ts : String) (items : List Item) : List FailedTransfer :=
  items.foldl (fun acc it =>
    if itemHasKey it "RESULT" then
      match itemGetD it "RESULT" (PyVal.pstr "") with
      | PyVal.pnone => acc
      | PyVal.pstr s =>
        if pyStrip s = "" then acc
        else acc ++ [⟨ts, itemGetD it "SUBSTATION" (PyVal.pstr "Unknown"),
          itemGetD it "DEVICE NAME" (PyVal.pstr "Unknown"), PyVal.pstr s⟩]
      | PyVal.pint n =>
        acc ++ [⟨ts, itemGetD it "SUBSTATION" (PyVal.pstr "Unknown"),
          itemGetD it "DEVICE NAME" (PyVal.pstr "Unknown"), PyVal.pint n⟩]
    else acc) []

/-- All elements of the embedded list as records, or `none` if some element is
not a record (the loader's `embedded_list[0].get` / `'RESULT' not in item`
then raises, reaching the file-level handler). -/
def allRecords : List LitElem → Option (List Item)
  | [] => some []
  | LitElem.record it :: rest => (allRecords rest).map (fun l => it :: l)
  | LitElem.scalar :: _ => none

/-- Outcome of one iteration of the line loop in
`DataManager._load_script_logs`: `skip` models every `continue` (blank line,
JSON decode error, missing marker, missing bracket pair, literal parse error,
empty or non-list payload); `abort` models an uncaught-in-the-loop exception
(non-object JSON, non-string message or timestamp, non-record list element)
that reaches the file-level `except` and ends processing; `record` appends
one run row and its failed-transfer rows. -/
inductive LineOut where
  | skip
  | abort
  | record (run : ScriptRunLog) (fails : List FailedTransfer)
  deriving DecidableEq, Repr

/-- One iteration of the line loop in `DataManager._load_script_logs`
(`line = rawLine.strip()` is written out at each use). -/
def parseLogLine (rawLine : String) : LineOut :=
  if pyStrip rawLine = "" then LineOut.skip
  else
    match jsonParseLine (pyStrip rawLine) with
    | JsonOut.err => LineOut.skip
    | JsonOut.scalarTop => LineOut.abort
    | JsonOut.obj o =>
      match jget o "message" (JVal.jstr "") with
      | JVal.jnum _ => LineOut.abort
      | JVal.jstr message =>
        if pyStartsWith message "Data capture list:" then
          match jget o "timestamp" (JVal.jstr "") with
          | JVal.jnum _ => LineOut.abort
          | JVal.jstr tsRaw =>
            match extractListStr message with
            | none => LineOut.skip
            | some listStr =>
              match literalListParse listStr with
              | none => LineOut.skip
              | some [] => LineOut.skip
              | some (e0 :: es) =>
                match allRecords (e0 :: es) with
                | none => LineOut.abort
                | some [] => LineOut.skip
                | some (it0 :: its) =>
                  LineOut.record
                    ⟨formatTimestamp tsRaw,
                      itemGetD it0 "SUBSTATION" (PyVal.pstr "Unknown"),
                      (it0 :: its).length,
                      if (it0 :: its).length > 0 then
                        (((it0 :: its).countP
                          (fun it => !(itemHasKey it "RESULT"))) : ℚ) /
                          (((it0 :: its).length) : ℚ) * 100
                      else 0⟩
                    (failedOfItems (formatTimestamp tsRaw) (it0 :: its))
        else LineOut.skip

/-- The `script_log_stats` dict. -/
structure ScriptLogStats where
  total_runs : Nat
  total_failures : Nat
  deriving DecidableEq, Repr

/-- The state `_load_script_logs` leaves in the cache. -/
structure ScriptLogResult where
  runs : List ScriptRunLog
  fails : List FailedTransfer
  stats : ScriptLogStats
  deriving DecidableEq, Repr

/-- The line loop of `DataManager._load_script_logs` with the two accumulator
lists; on abort the lists keep what was already appended and the stats are
reset to zero by the file-level handler, exactly as the code's `except` clause
leaves the cache. -/
def processLines : List String → List ScriptRunLog → List FailedTransfer →
    ScriptLogResult
  | [], rs, fs => ⟨rs, fs, ⟨rs.length, fs.length⟩⟩
  | l :: rest, rs, fs =>
    match parseLogLine l with
    | LineOut.skip => processLines rest rs fs
    | LineOut.abort => ⟨rs, fs, ⟨0, 0⟩⟩
    | LineOut.record r newFails => processLines rest (rs ++ [r]) (fs ++ newFails)

/-- `DataManager._load_script_logs`; `none` models a missing log file. -/
def loadScriptLogs : Option (List String) → ScriptLogResult
  | none => ⟨[], [], ⟨0, 0⟩⟩
  | some lines => processLines lines [] []

/-- The log line of the spec's log-line scenario (single quotes and braces
written with character escapes). -/
def c1Line : String :=
  "\x7b\"timestamp\":\"2024-01-01T00:00:00Z\",\"message\":\"Data capture list: [\x7b\x27SUBSTATION\x27:\x27BHL\x27,\x27DEVICE NAME\x27:\x27R1\x27\x7d,\x7b\x27SUBSTATION\x27:\x27BHL\x27,\x27DEVICE NAME\x27:\x27R2\x27,\x27RESULT\x27:\x27Not Mapped\x27\x7d]\"\x7d"

/-- True iff the line reaches `ast.literal_eval` and the parse fails there
(the `ValueError`/`SyntaxError` branch the loop catches per line). -/
def lineLiteralFails (rawLine : String) : Bool :=
  match jsonParseLine (pyStrip rawLine) with
  | JsonOut.obj o =>
    match jget o "message" (JVal.jstr "") with
    | JVal.jstr message =>
      pyStartsWith message "Data capture list:" &&
      (match jget o "timestamp" (JVal.jstr "") with
       | JVal.jstr _ =>
         (match extractListStr message with
          | some ls => decide (literalListParse ls = none)
          | none => false)
       | JVal.jnum _ => false)
    | JVal.jnum _ => false
  | _ => false

/-- A line whose message payload is a literal list of non-record elements:
`ast.literal_eval` succeeds on it, and the loader's subsequent
`embedded_list[0].get` raises, ending the whole load. -/
def c3BadLine : String :=
  "\x7b\"timestamp\":\"t\",\"message\":\"Data capture list: [1, 2]\"\x7d"

/-- A well-formed log line identical to the spec's scenario line. -/
def c3GoodLine : String :=
  "\x7b\"timestamp\":\"2024-01-01T00:00:00Z\",\"message\":\"Data capture list: [\x7b\x27SUBSTATION\x27:\x27BHL\x27,\x27DEVICE NAME\x27:\x27R1\x27\x7d,\x7b\x27SUBSTATION\x27:\x27BHL\x27,\x27DEVICE NAME\x27:\x27R2\x27,\x27RESULT\x27:\x27Not Mapped\x27\x7d]\"\x7d"

/-- The failed-transfer row the loop emits for one item, if any: present iff
the item has a `RESULT` key whose value is neither `None` nor blank after
stripping; the `result` field keeps the raw (untrimmed) value. -/
def failedRowOfItem (ts : String) (it : Item) : Option FailedTransfer :=
  if itemHasKey it "RESULT" then
    match itemGetD it "RESULT" (PyVal.pstr "") with
    | PyVal.pnone => none
    | PyVal.pstr s =>
      if pyStrip s = "" then none
      else some ⟨ts, itemGetD it "SUBSTATION" (PyVal.pstr "Unknown"),
        itemGetD it "DEVICE NAME" (PyVal.pstr "Unknown"), PyVal.pstr s⟩
    | PyVal.pint n =>
      some ⟨ts, itemGetD it "SUBSTATION" (PyVal.pstr "Unknown"),
        itemGetD it "DEVICE NAME" (PyVal.pstr "Unknown"), PyVal.pint n⟩
  else none

/-- True iff the item yields a failed-transfer row. -/
def qualifiesFailed (it : Item) : Bool :=
  itemHasKey it "RESULT" &&
  (match itemGetD it "RESULT" (PyVal.pstr "") with
   | PyVal.pnone => false
   | PyVal.pstr s => !(pyStrip s == "")
   | PyVal.pint _ => true)

/-- The log line of the C8 counterexample: the single item's `RESULT` value
is the string `" X "`, non-blank but carrying surrounding whitespace. -/
def c8Line : String :=
  "\x7b\"timestamp\":\"t\",\"message\":\"Data capture list: [\x7b\x27SUBSTATION\x27:\x27S\x27,\x27DEVICE NAME\x27:\x27D\x27,\x27RESULT\x27:\x27 X \x27\x7d]\"\x7d"

/-- Python `f"\x7bx:.1f\x7d"` on the exact rational the code computes: one
digit after the point, rounding to the nearest tenth (the float's binary
rounding is not modelled; every value the claims touch is exactly
representable). -/
def fmt1 (q : ℚ) : String :=
  (if round (q * 10) < 0 then "-" else "") ++
  toString ((round (q * 10)).natAbs / 10) ++ "." ++
  toString ((round (q * 10)).natAbs % 10)

/-- A raw row of `pf_relay_models.csv`. -/
structure RelayModelRow where
  manufacturer : Option String
  model : Option String
  used_in_eql : Option String
  deriving DecidableEq, Repr

/-- Dataclass `RelayModel`. -/
structure RelayModel where
  manufacturer : String
  model : String
  used_in_eql : String
  model_validated : String
  ips_mapping_file_exists : String
  deriving DecidableEq, Repr

/-- A raw row of `pf_fuse_models.csv`. -/
structure FuseModelRow where
  fuse : Option String
  fuse_type : Option String
  eql_standard : Option String
  deriving DecidableEq, Repr

/-- Dataclass `FuseModel`. -/
structure FuseModel where
  fuse : String
  fuse_type : String
  eql_standard : String
  fuse_datasheet : String
  deriving DecidableEq, Repr

/-- Python `', '.join(xs)`. -/
def joinComma : List String → String
  | [] => ""
  | [x] => x
  | x :: rest => x ++ ", " ++ joinComma rest

/-- Body of the row loop in `DataManager._load_relay_models`. -/
def relayModelOf (validatedDevices : List String)
    (pfIndex : String → List String) (row : RelayModelRow) : RelayModel :=
  { manufacturer := cellClean row.manufacturer
    model := cellClean row.model
    used_in_eql := cellClean row.used_in_eql
    model_validated := if cellClean row.model ∈ validatedDevices then "Yes" else ""
    ips_mapping_file_exists := joinComma (pfIndex (cellClean row.model)) }

/-- `DataManager._load_relay_models`; `none` models a missing file. -/
def loadRelayModels (rowsIn : Option (List RelayModelRow))
    (validatedDevices : List String) (pfIndex : String → List String) :
    List RelayModel :=
  match rowsIn with
  | none => []
  | some rows => rows.map (relayModelOf validatedDevices pfIndex)

/-- Body of the row loop in `DataManager._load_fuse_models`. -/
def fuseModelOf (fuseDatasheets : List String) (row : FuseModelRow) : FuseModel :=
  { fuse := cellClean row.fuse
    fuse_type := cellClean row.fuse_type
    eql_standard := cellClean row.eql_standard
    fuse_datasheet := if cellClean row.fuse ∈ fuseDatasheets then "Yes" else "" }

/-- `DataManager._load_fuse_models`; `none` models a missing file. -/
def loadFuseModels (rowsIn : Option (List FuseModelRow))
    (fuseDatasheets : List String) : List FuseModel :=
  match rowsIn with
  | none => []
  | some rows => rows.map (fuseModelOf fuseDatasheets)

/-- The shared shape of the three validation-log loaders
(`_load_pf_device_validation_log`, `_load_mapping_validation_log`,
`_load_fuse_datasheet_log`): first-column cells (`none` = NaN, filtered by
`dropna`), stripped, non-empty, collected into a set (modelled as a
duplicate-free list). `none` input models a missing file. -/
def loadValidationSet (cellsIn : Option (List (Option String))) : List String :=
  match cellsIn with
  | none => []
  | some cells =>
    cells.foldl (fun acc c =>
      match c with
      | none => acc
      | some v =>
        if pyStrip v ≠ "" ∧ pyStrip v ∉ acc then acc ++ [pyStrip v] else acc) []

/-- `DataManager._calculate_relay_mapping_percentage`. -/
def relayMappingPercentage (patterns : List RelayPattern) : ℚ :=
  if patterns = [] then 0
  else if ((patterns.map (fun p => p.eql_population)).sum) = 0 then 0
  else
    (((patterns.filter (fun p => p.mapping_file ≠ "")).map
      (fun p => p.eql_population)).sum : ℚ) /
      (((patterns.map (fun p => p.eql_population)).sum : ℕ) : ℚ) * 100

/-- `DataManager.get_ips_summary_stats` (the modelled computation never hits
the `except` branch, so the `Under Construction` fallback is unreachable in
the model). -/
def get_ips_summary_stats (seq regional : List RelayPattern) : String :=
  if seq = [] ∧ regional = [] then "No data loaded"
  else
    fmt1 (relayMappingPercentage seq) ++ "% of SEQ IPS devices have mapping files\n" ++
    fmt1 (relayMappingPercentage regional) ++ "% of Regional IPS devices have mapping files"

/-- `DataManager.get_mapping_summary_stats`. -/
def get_mapping_summary_stats (mappingFiles : List MappingFile) : String :=
  if mappingFiles.length = 0 then "No mapping files found"
  else
    toString (mappingFiles.countP (fun mf => mf.validated ≠ "")) ++ " of " ++
    toString mappingFiles.length ++ " mapping files validated"

/-- The weighted success percentage of
`DataManager.get_script_maintenance_summary_stats`:
`sum((p/100)*n) / total * 100`, guarded by `total > 0`. -/
def weightedSuccess (logs : List ScriptRunLog) : ℚ :=
  if ((logs.map (fun l => l.num_transfers)).sum) > 0 then
    ((logs.map (fun l => l.success_percentage / 100 * (l.num_transfers : ℚ))).sum) /
      (((logs.map (fun l => l.num_transfers)).sum : ℕ) : ℚ) * 100
  else 0

/-- `DataManager.get_script_maintenance_summary_stats`. -/
def get_script_maintenance_summary_stats (logs : List ScriptRunLog) : String :=
  if logs.length = 0 then "No script runs logged"
  else
    toString logs.length ++ " script run(s) logged\n" ++
    fmt1 (weightedSuccess logs) ++ "% Successful Transfers"

/-- `DataManager.get_relay_models_summary_stats`. -/
def get_relay_models_summary_stats (models : List RelayModel) : String :=
  if models = [] then "No relay models loaded"
  else
    toString (models.countP (fun rm =>
      decide (rm.model_validated ≠ "") && decide (rm.used_in_eql ≠ ""))) ++
    " EQL PowerFactory relay models validated"

/-- `DataManager.get_fuse_models_summary_stats`. -/
def get_fuse_models_summary_stats (fuses : List FuseModel) : String :=
  if fuses = [] then "No fuse models loaded"
  else
    toString (fuses.countP (fun fm => decide (fm.eql_standard ≠ ""))) ++
    " EQL Standard PowerFactory fuse models"

/-- The source files of one load, each `none` when the corresponding path
does not exist. -/
structure Sources where
  pf_device_validation : Option (List (Option String))
  mapping_validation : Option (List (Option String))
  fuse_datasheet : Option (List (Option String))
  type_mapping : Option (List TypeMappingRow)
  mapping_dir : Option (List String)
  seq_patterns : Option (List PatternRow)
  regional_patterns : Option (List PatternRow)
  log_lines : Option (List String)
  relay_models : Option (List RelayModelRow)
  fuse_models : Option (List FuseModelRow)

/-- The `DataCache` dataclass fields the model covers (lookup dicts as total
functions, validation sets as duplicate-free lists). -/
structure DataCache where
  relay_patterns_seq : List RelayPattern
  relay_patterns_regional : List RelayPattern
  mapping_files : List MappingFile
  type_mapping_entries : List TypeMappingEntry
  script_run_logs : List ScriptRunLog
  failed_transfers : List FailedTransfer
  relay_models : List RelayModel
  fuse_models : List FuseModel
  mapping_by_ips_pattern : String → Option String
  mapping_by_pf_model : String → List String
  validated_pf_devices : List String
  validated_mapping_files : List String
  fuse_datasheets : List String
  ips_total_records_seq : Nat
  ips_total_records_regional : Nat
  mapping_parse_stats : Nat × Nat
  script_log_stats : ScriptLogStats

/-- `DataManager._load_all_data`: the full load in its dependency order —
validation sets, type mapping, mapping files, lookup indexes, relay patterns
(resolved through the ips index), script logs, relay models (resolved through
the validation set and pf index), fuse models. -/
def loadAllData (src : Sources) : DataCache :=
  let validated_pf_devices := loadValidationSet src.pf_device_validation
  let validated_mapping_files := loadValidationSet src.mapping_validation
  let fuse_datasheets := loadValidationSet src.fuse_datasheet
  let type_mapping_entries := loadTypeMapping src.type_mapping
  let mapping_files := loadMappingFiles src.mapping_dir type_mapping_entries
    validated_mapping_files
  let mapping_by_ips_pattern := buildIpsIndex type_mapping_entries
  let mapping_by_pf_model := buildPfIndex type_mapping_entries
  let seqLoad := loadRelayPatternsFromFile src.seq_patterns
    mapping_by_ips_pattern "SEQ"
  let regionalLoad := loadRelayPatternsFromFile src.regional_patterns
    mapping_by_ips_pattern "Regional"
  let scriptLoad := loadScriptLogs src.log_lines
  { relay_patterns_seq := seqLoad.1
    relay_patterns_regional := regionalLoad.1
    mapping_files := mapping_files
    type_mapping_entries := type_mapping_entries
    script_run_logs := scriptLoad.runs
    failed_transfers := scriptLoad.fails
    relay_models := loadRelayModels src.relay_models validated_pf_devices
      mapping_by_pf_model
    fuse_models := loadFuseModels src.fuse_models fuse_datasheets
    mapping_by_ips_pattern := mapping_by_ips_pattern
    mapping_by_pf_model := mapping_by_pf_model
    validated_pf_devices := validated_pf_devices
    validated_mapping_files := validated_mapping_files
    fuse_datasheets := fuse_datasheets
    ips_total_records_seq := seqLoad.2
    ips_total_records_regional := regionalLoad.2
    mapping_parse_stats := mappingParseStats src.mapping_dir type_mapping_entries
    script_log_stats := scriptLoad.stats }

/-- The all-sources-missing load. -/
def emptySources : Sources :=
  ⟨none, none, none, none, none, none, none, none, none, none⟩

theorem insertSorted_perm {α : Type} (le : α → α → Bool) (a : α) (l : List α) :
    List.Perm (insertSorted le a l) (a :: l) := by
  induction l with
  | nil => simp [insertSorted]
  | cons b t ih =>
    simp only [insertSorted]
    split
    · exact List.Perm.refl _
    · exact (ih.cons b).trans (List.Perm.swap a b t)

theorem stableSortBy_perm {α : Type} (le : α → α → Bool) (l : List α) :
    List.Perm (stableSortBy le l) l := by
  induction l with
  | nil => simp [stableSortBy]
  | cons a t ih =>
    exact (insertSorted_perm le a (stableSortBy le t)).trans (ih.cons a)

theorem mem_pushNews {α : Type} [DecidableEq α] (acc xs : List α) (a : α) :
    a ∈ pushNews acc xs ↔ a ∈ acc ∨ a ∈ xs := by
  induction xs generalizing acc with
  | nil => simp [pushNews]
  | cons x t ih =>
    simp only [pushNews, List.foldl_cons] at *
    by_cases hx : x ∈ acc
    · simp only [if_pos hx, ih acc, List.mem_cons]
      constructor
      · rintro (h | h)
        · exact Or.inl h
        · exact Or.inr (Or.inr h)
      · rintro (h | h | h)
        · exact Or.inl h
        · exact Or.inl (h ▸ hx)
        · exact Or.inr h
    · simp only [if_neg hx, ih (acc ++ [x]), List.mem_append, List.mem_cons,
        List.mem_singleton]
      tauto

theorem nodup_pushNews {α : Type} [DecidableEq α] (acc xs : List α)
    (h : acc.Nodup) : (pushNews acc xs).Nodup := by
  induction xs generalizing acc with
  | nil => simpa [pushNews] using h
  | cons x t ih =>
    simp only [pushNews, List.foldl_cons]
    by_cases hx : x ∈ acc
    · rw [if_pos hx]
      exact ih acc h
    · rw [if_neg hx]
      exact ih (acc ++ [x]) (by simp [List.nodup_append, h, hx])

theorem mem_firstSeenDedup {α : Type} [DecidableEq α] (xs : List α) (a : α) :
    a ∈ firstSeenDedup xs ↔ a ∈ xs := by
  simp [firstSeenDedup, mem_pushNews]

theorem nodup_firstSeenDedup {α : Type} [DecidableEq α] (xs : List α) :
    (firstSeenDedup xs).Nodup :=
  nodup_pushNews [] xs List.nodup_nil

theorem typeMappingStep_eq (acc : List TypeMappingEntry)
    (row : TypeMappingRow) :
    typeMappingStep acc row = acc ++ (typeMappingRowEntry row).toList := by
  by_cases h : cellClean row.mapping_file = ""
  · simp [typeMappingStep, typeMappingRowEntry, h]
  · simp [typeMappingStep, typeMappingRowEntry, h]

theorem loadTypeMapping_foldl (rows : List TypeMappingRow)
    (acc : List TypeMappingEntry) :
    rows.foldl typeMappingStep acc = acc ++ rows.filterMap typeMappingRowEntry := by
  induction rows generalizing acc with
  | nil => simp
  | cons row t ih =>
    rw [List.foldl_cons, typeMappingStep_eq, ih, List.filterMap_cons]
    cases h : typeMappingRowEntry row <;> simp

theorem loadTypeMapping_eq (rows : List TypeMappingRow) :
    loadTypeMapping (some rows) = rows.filterMap typeMappingRowEntry := by
  simpa using loadTypeMapping_foldl rows []

theorem loadTypeMapping_mapping_file_ne (rows : Option (List TypeMappingRow))
    (e : TypeMappingEntry) (he : e ∈ loadTypeMapping rows) :
    e.mapping_file ≠ "" := by
  match rows with
  | none => simp [loadTypeMapping] at he
  | some rows =>
    rw [loadTypeMapping_eq] at he
    obtain ⟨row, _, hrow⟩ := List.mem_filterMap.mp he
    unfold typeMappingRowEntry at hrow
    split at hrow
    · cases hrow
      assumption
    · cases hrow

theorem ipsFold_apply (l : List TypeMappingEntry) (m : String → Option String)
    (X : String) (hX : X ≠ "") :
    (l.foldl ipsIndexStep m) X =
      match l.reverse.find? (fun e => e.ips == X && e.mapping_file != "") with
      | some e => some (e.mapping_file ++ ".csv")
      | none => m X := by
  induction l generalizing m with
  | nil => simp
  | cons e t ih =>
    rw [List.foldl_cons, ih (ipsIndexStep m e), List.reverse_cons, List.find?_append]
    cases hf : t.reverse.find? (fun e => e.ips == X && e.mapping_file != "") with
    | some a => simp [Option.or]
    | none =>
      simp only [Option.or, List.find?_singleton]
      by_cases hips : e.ips = X
      · by_cases hmf : e.mapping_file = ""
        · simp [ipsIndexStep, hips, hmf]
        · simp [ipsIndexStep, hips, hmf, hX, hips ▸ hX]
      · simp only [ipsIndexStep]
        have hbe : (e.ips == X && e.mapping_file != "") = false := by
          simp [hips]
        rw [hbe]
        split
        · exact if_neg (fun hh => hips hh.symm)
        · rfl

theorem pfFold_apply (l : List TypeMappingEntry) (m : String → List String)
    (M : String) (hM : M ≠ "") :
    (l.foldl pfIndexStep m) M =
      pushNews (m M)
        ((l.filter (fun e => e.pf_model == M && e.mapping_file != "")).map
          (fun e => e.mapping_file ++ ".csv")) := by
  induction l generalizing m with
  | nil => simp [pushNews]
  | cons e t ih =>
    rw [List.foldl_cons, ih (pfIndexStep m e)]
    by_cases hp : (e.pf_model == M && e.mapping_file != "") = true
    · simp only [List.filter_cons, hp, List.map_cons]
      obtain ⟨hpf, hmf⟩ := by simpa using hp
      have hstep : (pfIndexStep m e) M =
          if (e.mapping_file ++ ".csv") ∈ m M then m M
          else m M ++ [e.mapping_file ++ ".csv"] := by
        simp [pfIndexStep, hpf, hmf, hM]
      rw [hstep]
      simp [pushNews]
    · have hp' : (e.pf_model == M && e.mapping_file != "") = false := by
        rwa [Bool.not_eq_true] at hp
      simp only [List.filter_cons, hp', Bool.false_eq_true, if_false]
      have hstep : (pfIndexStep m e) M = m M := by
        simp only [pfIndexStep]
        split
        · rename_i hcond
          have hne : M ≠ e.pf_model := by
            intro h
            exact hp (by simp [h.symm, hcond.2])
          simp [hne]
        · rfl
      rw [hstep]

theorem find?_congr' {α : Type} (p q : α → Bool) (l : List α)
    (h : ∀ x ∈ l, p x = q x) : l.find? p = l.find? q := by
  induction l with
  | nil => rfl
  | cons a t ih =>
    have ha := h a (List.mem_cons_self a t)
    cases hq : q a with
    | true => simp [List.find?_cons, ha, hq]
    | false =>
      simp only [List.find?_cons, ha, hq]
      exact ih (fun x hx => h x (List.mem_cons_of_mem a hx))

/-- C7: applied to any list of retained type-mapping entries (all with a
non-empty mapping file), the index builder maps each non-empty ips pattern to
the `.csv` filename of the last entry carrying that pattern (last-write-wins),
and maps each non-empty pf model to the de-duplicated, first-seen-order list
of `.csv` filenames of the entries carrying that model. -/
theorem C7_index_builder (entries : List TypeMappingEntry)
    (h : ∀ e ∈ entries, e.mapping_file ≠ "")
    (X : String) (hX : X ≠ "") (M : String) (hM : M ≠ "") :
    buildIpsIndex entries X =
      (entries.reverse.find? (fun e => e.ips == X)).map
        (fun e => e.mapping_file ++ ".csv") ∧
    buildPfIndex entries M =
      firstSeenDedup
        ((entries.filter (fun e => e.pf_model == M)).map
          (fun e => e.mapping_file ++ ".csv")) := by
  constructor
  · rw [buildIpsIndex, ipsFold_apply entries _ X hX,
      find?_congr' _ (fun e => e.ips == X) entries.reverse
        (fun e he => by simp [h e (List.mem_reverse.mp he)])]
    cases entries.reverse.find? (fun e => e.ips == X) <;> simp
  · rw [buildPfIndex, pfFold_apply entries _ M hM,
      List.filter_congr
        (fun e he => by simp [h e he] : ∀ e ∈ entries,
          (e.pf_model == M && e.mapping_file != "") = (e.pf_model == M))]
    rfl

/-- Witness for C7 at a concrete entry list: pattern `P` appears in two
entries and is mapped to the later one's file, model `M` collects both
filenames de-duplicated. -/
theorem C7_index_builder_witness :
    (∀ e ∈ ([⟨"P", "M", "f1"⟩, ⟨"P", "M", "f2"⟩, ⟨"Q", "M", "f1"⟩] :
        List TypeMappingEntry), e.mapping_file ≠ "") ∧
    ("P" : String) ≠ "" ∧ ("M" : String) ≠ "" ∧
    (buildIpsIndex [⟨"P", "M", "f1"⟩, ⟨"P", "M", "f2"⟩, ⟨"Q", "M", "f1"⟩] "P" =
      (([⟨"P", "M", "f1"⟩, ⟨"P", "M", "f2"⟩, ⟨"Q", "M", "f1"⟩] :
        List TypeMappingEntry).reverse.find? (fun e => e.ips == "P")).map
        (fun e => e.mapping_file ++ ".csv") ∧
    buildPfIndex [⟨"P", "M", "f1"⟩, ⟨"P", "M", "f2"⟩, ⟨"Q", "M", "f1"⟩] "M" =
      firstSeenDedup
        ((([⟨"P", "M", "f1"⟩, ⟨"P", "M", "f2"⟩, ⟨"Q", "M", "f1"⟩] :
          List TypeMappingEntry).filter (fun e => e.pf_model == "M")).map
          (fun e => e.mapping_file ++ ".csv"))) :=
  ⟨by decide, by decide, by decide,
    C7_index_builder _ (by decide) "P" (by decide) "M" (by decide)⟩

/-- C6: a type-mapping row whose `MAPPING_FILE` cell is empty (or missing/NaN)
is dropped at load time: inserting it anywhere in the table changes neither
the retained entries, nor either lookup index, nor the mapping-file records. -/
theorem C6_empty_mapping_file_dropped (xs ys : List TypeMappingRow)
    (r : TypeMappingRow) (h : cellClean r.mapping_file = "")
    (dirStems : Option (List String)) (valSet : List String) :
    loadTypeMapping (some (xs ++ r :: ys)) = loadTypeMapping (some (xs ++ ys)) ∧
    buildIpsIndex (loadTypeMapping (some (xs ++ r :: ys))) =
      buildIpsIndex (loadTypeMapping (some (xs ++ ys))) ∧
    buildPfIndex (loadTypeMapping (some (xs ++ r :: ys))) =
      buildPfIndex (loadTypeMapping (some (xs ++ ys))) ∧
    loadMappingFiles dirStems (loadTypeMapping (some (xs ++ r :: ys))) valSet =
      loadMappingFiles dirStems (loadTypeMapping (some (xs ++ ys))) valSet := by
  have hent : loadTypeMapping (some (xs ++ r :: ys)) =
      loadTypeMapping (some (xs ++ ys)) := by
    rw [loadTypeMapping_eq, loadTypeMapping_eq, List.filterMap_append,
      List.filterMap_append, List.filterMap_cons]
    have hr : typeMappingRowEntry r = none := by
      simp [typeMappingRowEntry, h]
    rw [hr]
  exact ⟨hent, by rw [hent], by rw [hent], by rw [hent]⟩

/-- Witness for C6: a row with a missing `MAPPING_FILE` cell inserted between
two retained rows leaves the whole load unchanged. -/
theorem C6_empty_mapping_file_dropped_witness :
    cellClean (⟨some "X", some "Y", none⟩ : TypeMappingRow).mapping_file = "" ∧
    (loadTypeMapping (some ([⟨some "A", some "B", some "f"⟩] ++
        (⟨some "X", some "Y", none⟩ : TypeMappingRow) ::
        [⟨some "C", some "D", some "g"⟩])) =
      loadTypeMapping (some ([⟨some "A", some "B", some "f"⟩] ++
        [⟨some "C", some "D", some "g"⟩])) ∧
    buildIpsIndex (loadTypeMapping (some ([⟨some "A", some "B", some "f"⟩] ++
        (⟨some "X", some "Y", none⟩ : TypeMappingRow) ::
        [⟨some "C", some "D", some "g"⟩]))) =
      buildIpsIndex (loadTypeMapping (some ([⟨some "A", some "B", some "f"⟩] ++
        [⟨some "C", some "D", some "g"⟩]))) ∧
    buildPfIndex (loadTypeMapping (some ([⟨some "A", some "B", some "f"⟩] ++
        (⟨some "X", some "Y", none⟩ : TypeMappingRow) ::
        [⟨some "C", some "D", some "g"⟩]))) =
      buildPfIndex (loadTypeMapping (some ([⟨some "A", some "B", some "f"⟩] ++
        [⟨some "C", some "D", some "g"⟩]))) ∧
    loadMappingFiles (some ["f", "g"])
        (loadTypeMapping (some ([⟨some "A", some "B", some "f"⟩] ++
          (⟨some "X", some "Y", none⟩ : TypeMappingRow) ::
          [⟨some "C", some "D", some "g"⟩]))) [] =
      loadMappingFiles (some ["f", "g"])
        (loadTypeMapping (some ([⟨some "A", some "B", some "f"⟩] ++
          [⟨some "C", some "D", some "g"⟩]))) []) :=
  ⟨rfl, C6_empty_mapping_file_dropped [⟨some "A", some "B", some "f"⟩]
    [⟨some "C", some "D", some "g"⟩] ⟨some "X", some "Y", none⟩ rfl
    (some ["f", "g"]) []⟩

/-- C4 (counterexample): the first row `(IPS=P, PF_MODEL=M1, MAPPING_FILE=m1)`
of `c4Rows` is retained, yet after the load `P` maps to `"m2.csv"` — the file
of the *last* row carrying `P` — and not to `"m1.csv"` as the per-row
universal claim requires. -/
theorem C4_counterexample :
    (⟨"P", "M1", "m1"⟩ : TypeMappingEntry) ∈ loadTypeMapping (some c4Rows) ∧
    buildIpsIndex (loadTypeMapping (some c4Rows)) "P" = some "m2.csv" ∧
    ¬ buildIpsIndex (loadTypeMapping (some c4Rows)) "P" = some "m1.csv" := by
  refine ⟨by decide, by decide, by decide⟩

/-- C4 (amended): for a retained row `(IPS=X, PF_MODEL=Y, MAPPING_FILE=Z)`
with non-empty `X`, *provided every retained row with pattern `X` names file
`Z`* (last-write-wins makes the last such row authoritative), the index maps
`X` to `"Z.csv"`; and whenever a file with stem `Z` is present in the mapping
directory, the `MappingFile` record named `"Z.csv"` lists `X` among its
`ips_patterns`. -/
theorem C4_amended (rows : List TypeMappingRow) (stems : List String)
    (valSet : List String) (X Y Z : String) (hX : X ≠ "")
    (hmem : (⟨X, Y, Z⟩ : TypeMappingEntry) ∈ loadTypeMapping (some rows))
    (hlast : ∀ e ∈ loadTypeMapping (some rows), e.ips = X → e.mapping_file = Z) :
    buildIpsIndex (loadTypeMapping (some rows)) X = some (Z ++ ".csv") ∧
    (Z ∈ stems →
      ∃ mf ∈ loadMappingFiles (some stems) (loadTypeMapping (some rows)) valSet,
        mf.filename = Z ++ ".csv" ∧ X ∈ mf.ips_patterns) := by
  have hZ : Z ≠ "" :=
    loadTypeMapping_mapping_file_ne (some rows) ⟨X, Y, Z⟩ hmem
  constructor
  · rw [buildIpsIndex,
      ipsFold_apply (loadTypeMapping (some rows)) (fun _ => none) X hX]
    cases hf : (loadTypeMapping (some rows)).reverse.find?
        (fun e => e.ips == X && e.mapping_file != "") with
    | none =>
      exfalso
      have hall := List.find?_eq_none.mp hf ⟨X, Y, Z⟩
        (List.mem_reverse.mpr hmem)
      simp [hZ] at hall
    | some e =>
      have hpe := List.find?_some hf
      have hememb : e ∈ loadTypeMapping (some rows) :=
        List.mem_reverse.mp (List.mem_of_find?_eq_some hf)
      simp only [Bool.and_eq_true, beq_iff_eq, bne_iff_ne] at hpe
      simp only [hlast e hememb hpe.1]
  · intro hZs
    refine ⟨mappingFileOf (loadTypeMapping (some rows)) valSet Z, ?_, rfl, ?_⟩
    · exact ((stableSortBy_perm _ _).mem_iff).mpr
        (List.mem_map_of_mem (mappingFileOf (loadTypeMapping (some rows)) valSet) hZs)
    · apply (mem_firstSeenDedup _ _).mpr
      apply List.mem_filter.mpr
      refine ⟨?_, by simp [hX]⟩
      exact List.mem_map.mpr ⟨⟨X, Y, Z⟩, List.mem_filter.mpr ⟨hmem, by simp⟩, rfl⟩

/-- Witness for C4 (amended) at a one-row table whose file is present in the
mapping directory. -/
theorem C4_amended_witness :
    ("P" : String) ≠ "" ∧
    (⟨"P", "M", "m1"⟩ : TypeMappingEntry) ∈
      loadTypeMapping (some [⟨some "P", some "M", some "m1"⟩]) ∧
    (∀ e ∈ loadTypeMapping (some [⟨some "P", some "M", some "m1"⟩]),
      e.ips = "P" → e.mapping_file = "m1") ∧
    (buildIpsIndex (loadTypeMapping (some [⟨some "P", some "M", some "m1"⟩])) "P" =
      some ("m1" ++ ".csv") ∧
    (("m1" : String) ∈ ["m1", "other"] →
      ∃ mf ∈ loadMappingFiles (some ["m1", "other"])
          (loadTypeMapping (some [⟨some "P", some "M", some "m1"⟩])) [],
        mf.filename = "m1" ++ ".csv" ∧ "P" ∈ mf.ips_patterns)) :=
  ⟨by decide, by decide, by decide,
    C4_amended [⟨some "P", some "M", some "m1"⟩] ["m1", "other"] []
      "P" "M" "m1" (by decide) (by decide) (by decide)⟩

/-- C5: for a loaded relay-pattern table, the number of `RelayPattern` records
equals the number of distinct pattern values in the raw rows; each record's
`eql_population` is the count of raw rows sharing its pattern; and each
record's `asset` is the asset name of the first raw row (in file order)
carrying that pattern. -/
theorem C5_relay_pattern_grouping (rows : List PatternRow)
    (ipsIndex : String → Option String) (source : String) (rp : RelayPattern)
    (hrp : rp ∈ (loadRelayPatternsFromFile (some rows) ipsIndex source).1) :
    (loadRelayPatternsFromFile (some rows) ipsIndex source).1.length =
      (rows.map (fun r => r.patternname)).toFinset.card ∧
    rp.eql_population = rows.countP (fun r => r.patternname == rp.pattern) ∧
    ∃ r0, rows.find? (fun r => r.patternname == rp.pattern) = some r0 ∧
      rp.asset = r0.assetname := by
  have hout : (loadRelayPatternsFromFile (some rows) ipsIndex source).1 =
      stableSortBy (fun a b => decide (b.eql_population ≤ a.eql_population))
        ((firstSeenDedup (rows.map (fun r => r.patternname))).map
          (relayPatternOf rows ipsIndex source)) := rfl
  have hperm := stableSortBy_perm
    (fun a b => decide (b.eql_population ≤ a.eql_population))
    ((firstSeenDedup (rows.map (fun r => r.patternname))).map
      (relayPatternOf rows ipsIndex source))
  refine ⟨?_, ?_⟩
  · rw [hout, hperm.length_eq, List.length_map]
    have h2 : (firstSeenDedup (rows.map (fun r => r.patternname))).toFinset =
        (rows.map (fun r => r.patternname)).toFinset := by
      apply Finset.ext
      intro a
      simp [List.mem_toFinset, mem_firstSeenDedup]
    rw [← List.toFinset_card_of_nodup
      (nodup_firstSeenDedup (rows.map (fun r => r.patternname))), h2]
  · rw [hout] at hrp
    obtain ⟨p, hp, hmk⟩ := List.mem_map.mp (hperm.mem_iff.mp hrp)
    subst hmk
    have hpat : (relayPatternOf rows ipsIndex source p).pattern = p := rfl
    have hpmem : p ∈ rows.map (fun r => r.patternname) :=
      (mem_firstSeenDedup _ _).mp hp
    obtain ⟨r1, hr1, hr1p⟩ := List.mem_map.mp hpmem
    refine ⟨?_, ?_⟩
    · rw [hpat, List.countP_eq_length_filter]
      rfl
    · rw [hpat]
      cases hfind : rows.find? (fun r => r.patternname == p) with
      | none =>
        exfalso
        exact absurd (by simp [hr1p]) (List.find?_eq_none.mp hfind r1 hr1)
      | some r0 =>
        refine ⟨r0, rfl, ?_⟩
        show ((rows.filter (fun r => r.patternname == p)).head?.map
          (fun r => r.assetname)).getD "" = r0.assetname
        rw [List.filter_head?, hfind]
        rfl

/-- Witness for C5 on a three-row table where pattern `A` occurs twice. -/
theorem C5_relay_pattern_grouping_witness :
    (⟨"A", "a1", 2, "SEQ", "", ""⟩ : RelayPattern) ∈
      (loadRelayPatternsFromFile
        (some [⟨"A", "a1"⟩, ⟨"B", "b1"⟩, ⟨"A", "a2"⟩])
        (fun _ => none) "SEQ").1 ∧
    ((loadRelayPatternsFromFile
        (some [⟨"A", "a1"⟩, ⟨"B", "b1"⟩, ⟨"A", "a2"⟩])
        (fun _ => none) "SEQ").1.length =
      (([⟨"A", "a1"⟩, ⟨"B", "b1"⟩, ⟨"A", "a2"⟩] : List PatternRow).map
        (fun r => r.patternname)).toFinset.card ∧
    (⟨"A", "a1", 2, "SEQ", "", ""⟩ : RelayPattern).eql_population =
      ([⟨"A", "a1"⟩, ⟨"B", "b1"⟩, ⟨"A", "a2"⟩] : List PatternRow).countP
        (fun r => r.patternname == (⟨"A", "a1", 2, "SEQ", "", ""⟩ : RelayPattern).pattern) ∧
    ∃ r0, ([⟨"A", "a1"⟩, ⟨"B", "b1"⟩, ⟨"A", "a2"⟩] : List PatternRow).find?
        (fun r => r.patternname == (⟨"A", "a1", 2, "SEQ", "", ""⟩ : RelayPattern).pattern) = some r0 ∧
      (⟨"A", "a1", 2, "SEQ", "", ""⟩ : RelayPattern).asset = r0.assetname) :=
  ⟨by decide,
    C5_relay_pattern_grouping [⟨"A", "a1"⟩, ⟨"B", "b1"⟩, ⟨"A", "a2"⟩]
      (fun _ => none) "SEQ" ⟨"A", "a1", 2, "SEQ", "", ""⟩ (by decide)⟩

set_option maxRecDepth 40000 in
/-- C1: on a log file holding exactly the scenario line, the loader produces
exactly one `ScriptRunLog` with substation `BHL`, 2 transfers and a 50.0
success percentage, and exactly one `FailedTransfer` for device `R2` with
result `Not Mapped`. -/
theorem C1_log_line_scenario :
    loadScriptLogs (some [c1Line]) =
      ⟨[⟨"2024-01-01 00:00:00", PyVal.pstr "BHL", 2, 50⟩],
       [⟨"2024-01-01 00:00:00", PyVal.pstr "BHL", PyVal.pstr "R2",
         PyVal.pstr "Not Mapped"⟩],
       ⟨1, 1⟩⟩ := by
  have h : loadScriptLogs (some [c1Line]) =
      ⟨[⟨"2024-01-01 00:00:00", PyVal.pstr "BHL", 2, ((1 : ℕ) : ℚ) / ((2 : ℕ) : ℚ) * 100⟩],
       [⟨"2024-01-01 00:00:00", PyVal.pstr "BHL", PyVal.pstr "R2",
         PyVal.pstr "Not Mapped"⟩],
       ⟨1, 1⟩⟩ := rfl
  have h50 : ((1 : ℕ) : ℚ) / ((2 : ℕ) : ℚ) * 100 = (50 : ℚ) := by norm_num
  rw [h, h50]

theorem successPct_bounds (c n : Nat) (hcn : c ≤ n) :
    0 ≤ (if n > 0 then ((c : ℚ) / (n : ℚ)) * 100 else 0) ∧
    (if n > 0 then ((c : ℚ) / (n : ℚ)) * 100 else 0) ≤ 100 := by
  split
  · rename_i hn
    have hn' : (0 : ℚ) < (n : ℚ) := by exact_mod_cast hn
    constructor
    · positivity
    · have h1 : (c : ℚ) / (n : ℚ) ≤ 1 :=
        (div_le_one hn').mpr (by exact_mod_cast hcn)
      calc (c : ℚ) / (n : ℚ) * 100 ≤ 1 * 100 :=
            mul_le_mul_of_nonneg_right h1 (by norm_num)
        _ = 100 := by norm_num
  · exact ⟨le_refl 0, by norm_num⟩

theorem parseLogLine_record_bounds (l : String) (r : ScriptRunLog)
    (fs : List FailedTransfer) (h : parseLogLine l = LineOut.record r fs) :
    1 ≤ r.num_transfers ∧ 0 ≤ r.success_percentage ∧
      r.success_percentage ≤ 100 := by
  unfold parseLogLine at h
  by_cases h0 : pyStrip l = ""
  · rw [if_pos h0] at h
    cases h
  · rw [if_neg h0] at h
    cases hj : jsonParseLine (pyStrip l) with
    | err => rw [hj] at h; cases h
    | scalarTop => rw [hj] at h; cases h
    | obj o =>
      simp only [hj] at h
      cases hm : jget o "message" (JVal.jstr "") with
      | jnum n => simp only [hm] at h; cases h
      | jstr message =>
        simp only [hm] at h
        by_cases hs : pyStartsWith message "Data capture list:" = true
        · rw [if_pos hs] at h
          cases ht : jget o "timestamp" (JVal.jstr "") with
          | jnum n => simp only [ht] at h; cases h
          | jstr tsRaw =>
            simp only [ht] at h
            cases he : extractListStr message with
            | none => simp only [he] at h; cases h
            | some listStr =>
              simp only [he] at h
              cases hl : literalListParse listStr with
              | none => simp only [hl] at h; cases h
              | some es0 =>
                simp only [hl] at h
                cases es0 with
                | nil => cases h
                | cons e0 es =>
                  cases ha : allRecords (e0 :: es) with
                  | none => simp only [ha] at h; cases h
                  | some items =>
                    simp only [ha] at h
                    cases items with
                    | nil => cases h
                    | cons it0 its =>
                      cases h
                      refine ⟨by simp,
                        successPct_bounds _ _ (List.countP_le_length _)⟩
        · rw [if_neg hs] at h
          cases h

theorem processLines_runs_prop (P : ScriptRunLog → Prop)
    (hline : ∀ l r fs, parseLogLine l = LineOut.record r fs → P r)
    (lines : List String) (rs : List ScriptRunLog) (fs : List FailedTransfer)
    (hacc : ∀ r ∈ rs, P r) :
    ∀ r ∈ (processLines lines rs fs).runs, P r := by
  induction lines generalizing rs fs with
  | nil => exact hacc
  | cons l rest ih =>
    simp only [processLines]
    cases hp : parseLogLine l with
    | skip => exact ih rs fs hacc
    | abort => exact hacc
    | record r0 nf =>
      refine ih (rs ++ [r0]) (fs ++ nf) ?_
      intro r hr
      rcases List.mem_append.mp hr with hr | hr
      · exact hacc r hr
      · rw [List.mem_singleton.mp hr]
        exact hline l r0 nf hp

/-- C10: every `ScriptRunLog` the loader produces has at least one transfer
(empty or non-list payloads are skipped before a record is created) and a
success percentage within `[0, 100]`. -/
theorem C10_script_run_log_bounds (lines : List String) (r : ScriptRunLog)
    (hr : r ∈ (loadScriptLogs (some lines)).runs) :
    1 ≤ r.num_transfers ∧ 0 ≤ r.success_percentage ∧
      r.success_percentage ≤ 100 := by
  refine processLines_runs_prop
    (fun r => 1 ≤ r.num_transfers ∧ 0 ≤ r.success_percentage ∧
      r.success_percentage ≤ 100)
    (fun l r fs h => parseLogLine_record_bounds l r fs h)
    lines [] [] (by intro r hr; cases hr) r hr

set_option maxRecDepth 40000 in
/-- Witness for C10 on the scenario log file. -/
theorem C10_script_run_log_bounds_witness :
    (⟨"2024-01-01 00:00:00", PyVal.pstr "BHL", 2, 50⟩ : ScriptRunLog) ∈
      (loadScriptLogs (some [c1Line])).runs ∧
    (1 ≤ (⟨"2024-01-01 00:00:00", PyVal.pstr "BHL", 2, 50⟩ : ScriptRunLog).num_transfers ∧
     0 ≤ (⟨"2024-01-01 00:00:00", PyVal.pstr "BHL", 2, 50⟩ : ScriptRunLog).success_percentage ∧
     (⟨"2024-01-01 00:00:00", PyVal.pstr "BHL", 2, 50⟩ : ScriptRunLog).success_percentage ≤ 100) :=
  have hruns : (loadScriptLogs (some [c1Line])).runs =
      [⟨"2024-01-01 00:00:00", PyVal.pstr "BHL", 2,
        ((1 : ℕ) : ℚ) / ((2 : ℕ) : ℚ) * 100⟩] := rfl
  have hmem : (⟨"2024-01-01 00:00:00", PyVal.pstr "BHL", 2, 50⟩ : ScriptRunLog) ∈
      (loadScriptLogs (some [c1Line])).runs := by
    rw [hruns, show ((1 : ℕ) : ℚ) / ((2 : ℕ) : ℚ) * 100 = (50 : ℚ) from by norm_num]
    exact List.mem_singleton.mpr rfl
  ⟨hmem, C10_script_run_log_bounds [c1Line] _ hmem⟩

theorem parseLogLine_skip_of_bad (l : String)
    (h : jsonParseLine (pyStrip l) = JsonOut.err ∨ lineLiteralFails l = true) :
    parseLogLine l = LineOut.skip := by
  unfold parseLogLine
  by_cases h0 : pyStrip l = ""
  · rw [if_pos h0]
  · rw [if_neg h0]
    cases hj : jsonParseLine (pyStrip l) with
    | err => rfl
    | scalarTop =>
      rcases h with h | h
      · exact absurd hj (by rw [h]; intro hcon; cases hcon)
      · unfold lineLiteralFails at h
        rw [hj] at h
        cases h
    | obj o =>
      rcases h with h | h
      · rw [h] at hj
        cases hj
      · unfold lineLiteralFails at h
        simp only [hj] at h
        cases hm : jget o "message" (JVal.jstr "") with
        | jnum n =>
          simp only [hm] at h
          exact Bool.noConfusion h
        | jstr message =>
          simp only [hm, Bool.and_eq_true] at h
          obtain ⟨hs, hrest⟩ := h
          cases ht : jget o "timestamp" (JVal.jstr "") with
          | jnum n =>
            simp only [ht] at hrest
            exact Bool.noConfusion hrest
          | jstr tsRaw =>
            simp only [ht] at hrest
            cases he : extractListStr message with
            | none =>
              simp only [he] at hrest
              exact Bool.noConfusion hrest
            | some ls =>
              simp only [he, decide_eq_true_eq] at hrest
              simp [hm, hs, ht, he, hrest]

theorem processLines_skip_insert (xs ys : List String) (l : String)
    (hl : parseLogLine l = LineOut.skip) (rs : List ScriptRunLog)
    (fs : List FailedTransfer) :
    processLines (xs ++ l :: ys) rs fs = processLines (xs ++ ys) rs fs := by
  induction xs generalizing rs fs with
  | nil =>
    simp only [List.nil_append, processLines, hl]
  | cons x xs ih =>
    simp only [List.cons_append, processLines]
    cases hx : parseLogLine x with
    | skip => exact ih rs fs
    | abort => rfl
    | record r0 nf => exact ih (rs ++ [r0]) (fs ++ nf)

set_option maxRecDepth 40000 in
/-- C3 (counterexample): the file `[c3BadLine, c3GoodLine]` contains a
malformed line — its embedded list parses as a literal list but not as a list
of string-keyed records — followed by a valid line; the loader stops at the
malformed line, so the valid line's records are *not* produced, refuting
"every valid line's records are still produced regardless of malformed lines
elsewhere in the file". -/
theorem C3_counterexample :
    loadScriptLogs (some [c3BadLine, c3GoodLine]) = ⟨[], [], ⟨0, 0⟩⟩ ∧
    (loadScriptLogs (some [c3GoodLine])).runs ≠ [] := by
  constructor
  · rfl
  · intro hcon
    have hruns : (loadScriptLogs (some [c3GoodLine])).runs =
        [⟨"2024-01-01 00:00:00", PyVal.pstr "BHL", 2,
          ((1 : ℕ) : ℚ) / ((2 : ℕ) : ℚ) * 100⟩] := rfl
    rw [hruns] at hcon
    cases hcon

/-- C3 (amended): a line that fails to parse as JSON, or whose embedded
bracket substring fails to parse as a literal value, is skipped individually —
inserting such a line anywhere in the file leaves the loader's entire output
unchanged. (A line that parses as JSON but has the wrong shape — a non-object
top level, a non-string message or timestamp, or a literal list with
non-record elements — instead stops processing of the remaining lines; the
exception is still caught at file level, so nothing ever propagates to the
caller.) -/
theorem C3_amended_skip_invariance (xs ys : List String) (l : String)
    (h : jsonParseLine (pyStrip l) = JsonOut.err ∨ lineLiteralFails l = true) :
    loadScriptLogs (some (xs ++ l :: ys)) = loadScriptLogs (some (xs ++ ys)) := by
  unfold loadScriptLogs
  exact processLines_skip_insert xs ys l (parseLogLine_skip_of_bad l h) [] []

set_option maxRecDepth 40000 in
/-- Witness for C3 (amended): inserting a non-JSON line between two copies of
the valid scenario line changes nothing. -/
theorem C3_amended_skip_invariance_witness :
    (jsonParseLine (pyStrip "this is not json") = JsonOut.err ∨
      lineLiteralFails "this is not json" = true) ∧
    loadScriptLogs (some ([c3GoodLine] ++ "this is not json" :: [c3GoodLine])) =
      loadScriptLogs (some ([c3GoodLine] ++ [c3GoodLine])) :=
  ⟨Or.inl (by decide),
    C3_amended_skip_invariance [c3GoodLine] [c3GoodLine] "this is not json"
      (Or.inl (by decide))⟩

theorem failedRowOfItem_isSome (ts : String) (it : Item) :
    (failedRowOfItem ts it).isSome = qualifiesFailed it := by
  unfold failedRowOfItem qualifiesFailed
  by_cases hk : itemHasKey it "RESULT" = true
  · rw [if_pos hk, hk, Bool.true_and]
    cases hv : itemGetD it "RESULT" (PyVal.pstr "") with
    | pnone => rfl
    | pstr s =>
      by_cases hb : pyStrip s = ""
      · simp [hb]
      · simp [hb]
    | pint n => rfl
  · rw [if_neg hk]
    simp only [Bool.not_eq_true] at hk
    rw [hk, Bool.false_and]
    rfl

theorem failedOfItems_eq (ts : String) (items : List Item) :
    failedOfItems ts items = items.filterMap (failedRowOfItem ts) := by
  suffices h : ∀ acc : List FailedTransfer,
      items.foldl (fun acc it =>
        if itemHasKey it "RESULT" then
          match itemGetD it "RESULT" (PyVal.pstr "") with
          | PyVal.pnone => acc
          | PyVal.pstr s =>
            if pyStrip s = "" then acc
            else acc ++ [⟨ts, itemGetD it "SUBSTATION" (PyVal.pstr "Unknown"),
              itemGetD it "DEVICE NAME" (PyVal.pstr "Unknown"), PyVal.pstr s⟩]
          | PyVal.pint n =>
            acc ++ [⟨ts, itemGetD it "SUBSTATION" (PyVal.pstr "Unknown"),
              itemGetD it "DEVICE NAME" (PyVal.pstr "Unknown"), PyVal.pint n⟩]
        else acc) acc = acc ++ items.filterMap (failedRowOfItem ts) by
    simpa [failedOfItems] using h []
  induction items with
  | nil => simp
  | cons it t ih =>
    intro acc
    rw [List.foldl_cons, List.filterMap_cons]
    have hstep : (if itemHasKey it "RESULT" then
        match itemGetD it "RESULT" (PyVal.pstr "") with
        | PyVal.pnone => acc
        | PyVal.pstr s =>
          if pyStrip s = "" then acc
          else acc ++ [⟨ts, itemGetD it "SUBSTATION" (PyVal.pstr "Unknown"),
            itemGetD it "DEVICE NAME" (PyVal.pstr "Unknown"), PyVal.pstr s⟩]
        | PyVal.pint n =>
          acc ++ [⟨ts, itemGetD it "SUBSTATION" (PyVal.pstr "Unknown"),
            itemGetD it "DEVICE NAME" (PyVal.pstr "Unknown"), PyVal.pint n⟩]
      else acc) = acc ++ (failedRowOfItem ts it).toList := by
      unfold failedRowOfItem
      by_cases hk : itemHasKey it "RESULT" = true
      · rw [if_pos hk, if_pos hk]
        cases hv : itemGetD it "RESULT" (PyVal.pstr "") with
        | pnone => simp
        | pstr s =>
          by_cases hb : pyStrip s = ""
          · simp [hb]
          · simp [hb]
        | pint n => simp
      · rw [if_neg hk, if_neg hk]
        simp
    rw [hstep]
    cases hrow : failedRowOfItem ts it with
    | none => simp [ih acc]
    | some ft => simp [ih (acc ++ [ft])]

set_option maxRecDepth 40000 in
/-- C8 (counterexample): for an item whose `RESULT` is `" X "`, the emitted
`FailedTransfer.result` is the raw `" X "`, not the trimmed `"X"` the claim
requires. -/
theorem C8_counterexample :
    (loadScriptLogs (some [c8Line])).fails =
      [⟨"t", PyVal.pstr "S", PyVal.pstr "D", PyVal.pstr " X "⟩] ∧
    pyStrip " X " = "X" ∧
    PyVal.pstr " X " ≠ PyVal.pstr "X" := by
  refine ⟨rfl, rfl, by decide⟩

/-- C8 (amended): the failed-transfer rows derived from an embedded list are
exactly one row per item whose `RESULT` key is present with a value that is
neither `None` nor a blank-after-strip string; each row is built from the
item's raw `SUBSTATION` / `DEVICE NAME` / `RESULT` values — the `RESULT` is
kept untrimmed — and a string-valued `result` always strips to a non-empty
string (so it is itself non-empty). -/
theorem C8_amended_failed_rows (ts : String) (items : List Item) :
    failedOfItems ts items = items.filterMap (failedRowOfItem ts) ∧
    (failedOfItems ts items).length = items.countP qualifiesFailed ∧
    (∀ ft ∈ failedOfItems ts items, ∃ it ∈ items,
      qualifiesFailed it = true ∧
      ft = ⟨ts, itemGetD it "SUBSTATION" (PyVal.pstr "Unknown"),
        itemGetD it "DEVICE NAME" (PyVal.pstr "Unknown"),
        itemGetD it "RESULT" (PyVal.pstr "")⟩) ∧
    ∀ ft ∈ failedOfItems ts items, ∀ s, ft.result = PyVal.pstr s →
      pyStrip s ≠ "" ∧ s ≠ "" := by
  refine ⟨failedOfItems_eq ts items, ?_, ?_, ?_⟩
  · rw [failedOfItems_eq ts items, List.length_filterMap_eq_countP]
    exact List.countP_congr (fun it _ => by rw [failedRowOfItem_isSome ts it])
  · intro ft hft
    rw [failedOfItems_eq ts items] at hft
    obtain ⟨it, hit, hrow⟩ := List.mem_filterMap.mp hft
    refine ⟨it, hit, ?_, ?_⟩
    · rw [← failedRowOfItem_isSome ts it, hrow]
      rfl
    · unfold failedRowOfItem at hrow
      by_cases hk : itemHasKey it "RESULT" = true
      · rw [if_pos hk] at hrow
        cases hv : itemGetD it "RESULT" (PyVal.pstr "") with
        | pnone => simp only [hv] at hrow; cases hrow
        | pstr s =>
          simp only [hv] at hrow
          by_cases hb : pyStrip s = ""
          · rw [if_pos hb] at hrow; cases hrow
          · rw [if_neg hb] at hrow
            cases hrow
            rfl
        | pint n =>
          simp only [hv] at hrow
          cases hrow
          rfl
      · rw [if_neg hk] at hrow
        cases hrow
  · intro ft hft s hres
    rw [failedOfItems_eq ts items] at hft
    obtain ⟨it, hit, hrow⟩ := List.mem_filterMap.mp hft
    unfold failedRowOfItem at hrow
    by_cases hk : itemHasKey it "RESULT" = true
    · rw [if_pos hk] at hrow
      cases hv : itemGetD it "RESULT" (PyVal.pstr "") with
      | pnone => simp only [hv] at hrow; cases hrow
      | pstr s' =>
        simp only [hv] at hrow
        by_cases hb : pyStrip s' = ""
        · rw [if_pos hb] at hrow; cases hrow
        · rw [if_neg hb] at hrow
          cases hrow
          cases hres
          refine ⟨hb, ?_⟩
          intro hs
          exact hb (by rw [hs]; rfl)
      | pint n =>
        simp only [hv] at hrow
        cases hrow
        cases hres
    · rw [if_neg hk] at hrow
      cases hrow

/-- C2: the script-maintenance summary weights each run's success percentage
by its transfer count: for runs `(10, 50%)` and `(90, 100%)` the weighted
success is exactly `95`, reported as `95.0`; and the zero-transfer guard
yields `0` instead of dividing by zero. -/
theorem C2_weighted_success :
    weightedSuccess [⟨"", PyVal.pstr "", 10, 50⟩, ⟨"", PyVal.pstr "", 90, 100⟩] = 95 ∧
    get_script_maintenance_summary_stats
        [⟨"", PyVal.pstr "", 10, 50⟩, ⟨"", PyVal.pstr "", 90, 100⟩] =
      "2 script run(s) logged\n95.0% Successful Transfers" ∧
    weightedSuccess [⟨"", PyVal.pstr "", 0, 0⟩] = 0 := by
  have h95 : weightedSuccess
      [⟨"", PyVal.pstr "", 10, 50⟩, ⟨"", PyVal.pstr "", 90, 100⟩] = 95 := by
    unfold weightedSuccess
    norm_num
  refine ⟨h95, ?_, ?_⟩
  · have hstr : get_script_maintenance_summary_stats
        [⟨"", PyVal.pstr "", 10, 50⟩, ⟨"", PyVal.pstr "", 90, 100⟩] =
        toString (2 : ℕ) ++ " script run(s) logged\n" ++
        fmt1 (weightedSuccess
          [⟨"", PyVal.pstr "", 10, 50⟩, ⟨"", PyVal.pstr "", 90, 100⟩]) ++
        "% Successful Transfers" := rfl
    have hfmt : fmt1 95 = "95.0" := by
      unfold fmt1
      have h : round ((95 : ℚ) * 10) = ((950 : ℕ) : ℤ) := by
        rw [show (95 : ℚ) * 10 = ((950 : ℕ) : ℚ) by norm_num, round_natCast]
      rw [h]
      decide
    rw [hstr, h95, hfmt]
    decide
  · unfold weightedSuccess
    norm_num

/-- C9: a load with every source path missing yields a snapshot whose lists,
sets and counters are all empty, and each summary function on that snapshot
returns its defined no-data fallback string; the modelled computations are
total, so no exception can reach the caller. -/
theorem C9_summary_fallbacks :
    (loadAllData emptySources).relay_patterns_seq = [] ∧
    (loadAllData emptySources).relay_patterns_regional = [] ∧
    (loadAllData emptySources).mapping_files = [] ∧
    (loadAllData emptySources).type_mapping_entries = [] ∧
    (loadAllData emptySources).script_run_logs = [] ∧
    (loadAllData emptySources).failed_transfers = [] ∧
    (loadAllData emptySources).relay_models = [] ∧
    (loadAllData emptySources).fuse_models = [] ∧
    (loadAllData emptySources).validated_pf_devices = [] ∧
    (loadAllData emptySources).validated_mapping_files = [] ∧
    (loadAllData emptySources).fuse_datasheets = [] ∧
    (loadAllData emptySources).ips_total_records_seq = 0 ∧
    (loadAllData emptySources).ips_total_records_regional = 0 ∧
    (loadAllData emptySources).mapping_parse_stats = (0, 0) ∧
    (loadAllData emptySources).script_log_stats = ⟨0, 0⟩ ∧
    get_ips_summary_stats (loadAllData emptySources).relay_patterns_seq
      (loadAllData emptySources).relay_patterns_regional = "No data loaded" ∧
    get_mapping_summary_stats (loadAllData emptySources).mapping_files =
      "No mapping files found" ∧
    get_script_maintenance_summary_stats
      (loadAllData emptySources).script_run_logs = "No script runs logged" ∧
    get_relay_models_summary_stats (loadAllData emptySources).relay_models =
      "No relay models loaded" ∧
    get_fuse_models_summary_stats (loadAllData emptySources).fuse_models =
      "No fuse models loaded" :=
  ⟨rfl, rfl, rfl, rfl, rfl, rfl, rfl, rfl, rfl, rfl, rfl, rfl, rfl, rfl, rfl,
   rfl, rfl, rfl, rfl, rfl⟩

end ProtDev

